import Mathlib

/-!
Verification of the riscv crate of the noz repository: a shallow embedding of
the RV32I instruction decoder (src/riscv/src/instruction.rs), of the module /
memory / instance composition (src/riscv/src/module.rs, memory.rs, engine.rs,
config.rs, instance.rs, error.rs), and proofs of the testable properties
claimed by the specification.

Machine integers are embedded as Nat (for u8 and u32 values, with the u32
invariant w < 2 ^ 32 carried as a hypothesis where needed) and as Int (for
i16 and i32 values, kept in their signed range by the cast functions below).
Rust casts and shifts are modelled explicitly: the cast u32-to-i32 reinterprets
the bit pattern, the arithmetic right shift of an i32 is floor division by a
power of two, and the cast i32-to-i16 truncates to the low 16 bits and
reinterprets them as signed.
-/

namespace Noz

/-- Rust cast to u8 (`as u8`): keep the low 8 bits. -/
def u8 (n : Nat) : Nat := n % 256

/-- Rust cast u32-to-i32 (`as i32`): reinterpret the 32-bit pattern as signed. -/
def toI32 (n : Nat) : Int :=
if n % 4294967296 < 2147483648 then ((n % 4294967296 : Nat) : Int)
else ((n % 4294967296 : Nat) : Int) - 4294967296

/-- Rust arithmetic right shift of an i32 by k bits: floor division by 2 ^ k. -/
def i32shr (x : Int) (k : Nat) : Int := Int.fdiv x (2 ^ k)

/-- Rust cast i32-to-i16 (`as i16`): truncate to the low 16 bits of the two s
complement pattern and reinterpret them as signed. -/
def toI16 (x : Int) : Int :=
if x % 65536 < 32768 then x % 65536 else x % 65536 - 65536

/-- The 16-bit two s complement pattern of an i16 value. -/
def pat16 (x : Int) : Nat := (x % 65536).toNat

/-- Rust bitwise and of two i16 values: and of the 16-bit patterns,
reinterpreted as signed. -/
def i16and (x y : Int) : Int := toI16 ((pat16 x &&& pat16 y : Nat) : Int)

/-- The RiscVInstruction enum of src/riscv/src/instruction.rs. Register
indices rd, rs1, rs2 are u8 values; immediates are i16 values. The enum has
no And variant, and the shift-right-logical-immediate variant is named Slri
in the source. -/
inductive RiscVInstruction where
| Add (rd rs1 rs2 : Nat)
| Sub (rd rs1 rs2 : Nat)
| Xor (rd rs1 rs2 : Nat)
| Or (rd rs1 rs2 : Nat)
| Addi (rd rs1 : Nat) (imm : Int)
| Xori (rd rs1 : Nat) (imm : Int)
| Ori (rd rs1 : Nat) (imm : Int)
| Andi (rd rs1 : Nat) (imm : Int)
| Slli (rd rs1 : Nat) (imm : Int)
| Slri (rd rs1 : Nat) (imm : Int)
| Srai (rd rs1 : Nat) (imm : Int)
| Slti (rd rs1 : Nat) (imm : Int)
| Sltiu (rd rs1 : Nat) (imm : Int)
| Lb (rd rs1 : Nat) (imm : Int)
| Lh (rd rs1 : Nat) (imm : Int)
| Lw (rd rs1 : Nat) (imm : Int)
| Lbu (rd rs1 : Nat) (imm : Int)
| Lhu (rd rs1 : Nat) (imm : Int)
| Jalr (rd rs1 : Nat) (imm : Int)
| Ecall
| Ebreak
| Unsupported (word : Nat)
deriving DecidableEq

/-- The I-immediate extraction of the decoder:
`((word & IMM_I_MASK) as i32 >> IMM_I_SHIFT) as i16` with IMM_I_MASK =
0xfff00000 and IMM_I_SHIFT = 20. -/
def decodeImmI (word : Nat) : Int := toI16 (i32shr (toI32 (word &&& 0xfff00000)) 20)

/-- RiscVInstruction::decode of src/riscv/src/instruction.rs, embedded on Nat.
The arm `_ => unreachable!(..)` of the opcode 0x13 branch is embedded as
`none`; every other path returns `some`. Mask and shift constants are inlined
from the source (OPCODE_MASK = 0x7f, FUNCT3_MASK = 0x7000, RD_MASK = 0xf80,
RS1_MASK = 0xf8000, RS2_MASK = 0x1f00000, IMM_I_MASK = 0xfff00000,
FUNCT7_MASK = 0xfe000000, with shifts 12, 7, 15, 20, 20, 25). -/
def decode (word : Nat) : Option RiscVInstruction :=
match word &&& 0x7f with
| 0x33 =>
  let funct3 := u8 (((word &&& 0x7000) >>> 12) &&& 0x7)
  let funct7 := (word &&& 0xfe000000) >>> 25
  let rd := u8 ((word &&& 0xf80) >>> 7)
  let rs1 := u8 ((word &&& 0xf8000) >>> 15)
  let rs2 := u8 ((word &&& 0x1f00000) >>> 20)
  match funct3 with
  | 0x0 =>
    if funct7 = 0x00 then some (.Add rd rs1 rs2)
    else if funct7 = 0x20 then some (.Sub rd rs1 rs2)
    else some (.Unsupported word)
  | 0x4 =>
    if funct7 = 0x00 then some (.Xor rd rs1 rs2)
    else some (.Unsupported word)
  | 0x6 =>
    if funct7 = 0x00 then some (.Or rd rs1 rs2)
    else some (.Unsupported word)
  | _ => some (.Unsupported word)
| 0x13 =>
  let funct3 := u8 (((word &&& 0x7000) >>> 12) &&& 0x7)
  let rd := u8 ((word &&& 0xf80) >>> 7)
  let rs1 := u8 ((word &&& 0xf8000) >>> 15)
  let imm := decodeImmI word
  let funct7 := (word &&& 0xfe000000) >>> 25
  match funct3 with
  | 0x0 => some (.Addi rd rs1 imm)
  | 0x2 => some (.Slti rd rs1 imm)
  | 0x3 => some (.Sltiu rd rs1 imm)
  | 0x1 =>
    if funct7 = 0x00 then some (.Slli rd rs1 (i16and imm 0x1f))
    else some (.Unsupported word)
  | 0x5 =>
    if funct7 = 0x20 then some (.Srai rd rs1 (i16and imm 0x1f))
    else if funct7 = 0x00 then some (.Slri rd rs1 (i16and imm 0x1f))
    else some (.Unsupported word)
  | 0x4 => some (.Xori rd rs1 imm)
  | 0x6 => some (.Ori rd rs1 imm)
  | 0x7 => some (.Andi rd rs1 imm)
  | _ => none
| 0x03 =>
  let funct3 := u8 (((word &&& 0x7000) >>> 12) &&& 0x7)
  let rd := u8 ((word &&& 0xf80) >>> 7)
  let rs1 := u8 ((word &&& 0xf8000) >>> 15)
  let imm := decodeImmI word
  match funct3 with
  | 0x0 => some (.Lb rd rs1 imm)
  | 0x1 => some (.Lh rd rs1 imm)
  | 0x2 => some (.Lw rd rs1 imm)
  | 0x4 => some (.Lbu rd rs1 imm)
  | 0x5 => some (.Lhu rd rs1 imm)
  | _ => some (.Unsupported word)
| 0x67 =>
  let funct3 := (word &&& 0x7000) >>> 12
  if funct3 = 0x0 then
    let rd := u8 ((word &&& 0xf80) >>> 7)
    let rs1 := u8 ((word &&& 0xf8000) >>> 15)
    let imm := decodeImmI word
    some (.Jalr rd rs1 imm)
  else some (.Unsupported word)
| 0x73 =>
  let funct3 := (word &&& 0x7000) >>> 12
  if funct3 = 0x0 then
    let rd := u8 ((word &&& 0xf80) >>> 7)
    let rs1 := u8 ((word &&& 0xf8000) >>> 15)
    let imm := (word &&& 0xfff00000) >>> 20
    if rd = 0 ∧ rs1 = 0 then
      match imm with
      | 0x0 => some .Ecall
      | 0x1 => some .Ebreak
      | _ => some (.Unsupported word)
    else some (.Unsupported word)
  else some (.Unsupported word)
| _ => some (.Unsupported word)

/-- One lowercase hexadecimal digit (values 0 to 15). -/
def hexDigitChar (n : Nat) : Char :=
if n < 10 then Char.ofNat (48 + n) else Char.ofNat (87 + n)

/-- The Rust format specifier 08x applied to a u32 value: eight lowercase
hexadecimal digits, most significant first (for word < 2 ^ 32 the width is
exactly eight, so the zero padding of the format is the leading digits being
zero). -/
def hex8 (w : Nat) : String :=
String.mk [hexDigitChar (w / 268435456 % 16), hexDigitChar (w / 16777216 % 16),
  hexDigitChar (w / 1048576 % 16), hexDigitChar (w / 65536 % 16),
  hexDigitChar (w / 4096 % 16), hexDigitChar (w / 256 % 16),
  hexDigitChar (w / 16 % 16), hexDigitChar (w % 16)]

/-- The Display implementation for RiscVInstruction of
src/riscv/src/instruction.rs. -/
def display (i : RiscVInstruction) : String :=
match i with
| .Add rd rs1 rs2 => "add x" ++ toString rd ++ ", x" ++ toString rs1 ++ ", x" ++ toString rs2
| .Sub rd rs1 rs2 => "sub x" ++ toString rd ++ ", x" ++ toString rs1 ++ ", x" ++ toString rs2
| .Xor rd rs1 rs2 => "xor x" ++ toString rd ++ ", x" ++ toString rs1 ++ ", x" ++ toString rs2
| .Or rd rs1 rs2 => "or x" ++ toString rd ++ ", x" ++ toString rs1 ++ ", x" ++ toString rs2
| .Addi rd rs1 imm => "addi x" ++ toString rd ++ ", x" ++ toString rs1 ++ ", " ++ toString imm
| .Xori rd rs1 imm => "xori x" ++ toString rd ++ ", x" ++ toString rs1 ++ ", " ++ toString imm
| .Ori rd rs1 imm => "ori x" ++ toString rd ++ ", x" ++ toString rs1 ++ ", " ++ toString imm
| .Andi rd rs1 imm => "andi x" ++ toString rd ++ ", x" ++ toString rs1 ++ ", " ++ toString imm
| .Slli rd rs1 imm => "slli x" ++ toString rd ++ ", x" ++ toString rs1 ++ ", " ++ toString imm
| .Slri rd rs1 imm => "slri x" ++ toString rd ++ ", x" ++ toString rs1 ++ ", " ++ toString imm
| .Srai rd rs1 imm => "srai x" ++ toString rd ++ ", x" ++ toString rs1 ++ ", " ++ toString imm
| .Slti rd rs1 imm => "slti x" ++ toString rd ++ ", x" ++ toString rs1 ++ ", " ++ toString imm
| .Sltiu rd rs1 imm => "sltiu x" ++ toString rd ++ ", x" ++ toString rs1 ++ ", " ++ toString imm
| .Lb rd rs1 imm => "lb x" ++ toString rd ++ ", " ++ toString imm ++ "(x" ++ toString rs1 ++ ")"
| .Lh rd rs1 imm => "lh x" ++ toString rd ++ ", " ++ toString imm ++ "(x" ++ toString rs1 ++ ")"
| .Lw rd rs1 imm => "lw x" ++ toString rd ++ ", " ++ toString imm ++ "(x" ++ toString rs1 ++ ")"
| .Lbu rd rs1 imm => "lbu x" ++ toString rd ++ ", " ++ toString imm ++ "(x" ++ toString rs1 ++ ")"
| .Lhu rd rs1 imm => "lhu x" ++ toString rd ++ ", " ++ toString imm ++ "(x" ++ toString rs1 ++ ")"
| .Jalr rd rs1 imm => "jalr x" ++ toString rd ++ ", x" ++ toString rs1 ++ ", " ++ toString imm
| .Ecall => "ecall"
| .Ebreak => "ebreak"
| .Unsupported word => "unsupported(0x" ++ hex8 word ++ ")"

/-- Configuration for the RISC-V virtual machine
(src/riscv/src/config.rs). The syscall field is a function pointer; the
derived maximum native code size is max_code_size times the
NATIVE_CODE_MULTIPLIER of 4. -/
structure Config where
syscall : List Nat → Nat → Nat
context : Nat
max_memory : Nat
max_code_size : Nat

/-- Config::max_native_code_size of src/riscv/src/config.rs:
max_code_size * NATIVE_CODE_MULTIPLIER with NATIVE_CODE_MULTIPLIER = 4. -/
def Config.max_native_code_size (c : Config) : Nat := c.max_code_size * 4

/-- The engine of src/riscv/src/engine.rs: a shared, reference-counted holder
of one Config. Rc pointer identity (Rc::ptr_eq) is modelled by an allocation
identifier: two Engine values denote the same shared allocation exactly when
their alloc fields are equal, so engines built by two separate Engine::new
calls carry distinct alloc values even when their configs are equal. -/
structure Engine where
alloc : Nat
config : Config

/-- The module of src/riscv/src/module.rs. The mmap-allocated code arena is
modelled by the list arena of its bytes (length max_native_code_size,
zero-initialised by construction); native_code_addr is the identity of that
arena, carried implicitly. native_code_size counts the bytes of valid native
code currently installed. The field native is the abstract denotation of the
machine code in the arena: native pc arg is the u32 value returned by calling
the code at byte offset pc of the arena with the single u32 argument arg
(the execution of host machine code itself is outside this embedding). -/
structure Module where
engine : Engine
arena : List Nat
native_code_size : Nat
native : Nat → Nat → Nat

/-- The memory of src/riscv/src/memory.rs: an engine and a zero-initialised
byte buffer. -/
structure Memory where
engine : Engine
buffer : List Nat

/-- The error enum of src/riscv/src/error.rs. -/
inductive Error where
| ClearCacheFailed
| InvalidCodeSize
| InvalidEngine
| InvalidInstruction
| MemoryAllocationFailed
| MemoryProtectionFailed
| OutOfGas
deriving DecidableEq

/-- Module::set_native_code of src/riscv/src/module.rs. Returns the written
module together with the outcome, mirroring the Rust receiver &mut self plus
Result. The two mprotect permission transitions and the clear_cache
invalidation are host system calls; this embedding models the case in which
they succeed (the failure returns MemoryProtectionFailed or ClearCacheFailed
in the source and is not modelled). On the InvalidCodeSize early return the
module is untouched, exactly as in the source where the guard precedes every
write. -/
def Module.set_native_code (m : Module) (code : List Nat) : Option Error × Module :=
if code.length > m.engine.config.max_native_code_size then (some Error.InvalidCodeSize, m)
else (none, { m with arena := code ++ m.arena.drop code.length, native_code_size := code.length })

/-- Module::native_code of src/riscv/src/module.rs: the first
native_code_size bytes of the arena. -/
def Module.native_code (m : Module) : List Nat := m.arena.take m.native_code_size

/-- An instance pairs a module with a memory (src/riscv/src/instance.rs). -/
structure Instance where
module : Module
memory : Memory

/-- Instance::new of src/riscv/src/instance.rs: reject with InvalidEngine
when Rc::ptr_eq(module.engine, memory.engine) is false, that is when the two
engines are not the same shared allocation; otherwise take ownership of
both. -/
def Instance.new (module : Module) (memory : Memory) : Except Error Instance :=
if ¬ (module.engine.alloc = memory.engine.alloc) then Except.error Error.InvalidEngine
else Except.ok (Instance.mk module memory)

/-- Instance::call of src/riscv/src/instance.rs: form a function pointer at
native_code_addr + pc, call it with arg, and wrap the result in Ok. The body
performs no gas accounting, no bounds check of pc against the installed code
size, and has no error-returning path; the declared error type is Except
Error only because of the signature. The machine-code call itself is the
abstract denotation field native of the module. -/
def Instance.call (inst : Instance) (pc arg : Nat) : Except Error Nat :=
Except.ok (inst.module.native pc arg)

/-! Specification-side definitions: the field extraction formulas of section
4.1 of the spec, the sign extension of a 12-bit pattern, and the dispatch
table of the spec as a predicate. These are written from the words of the
spec and are related to the decoder by the theorems below. -/

/-- Spec formula: opcode = word & 0x7F. -/
def opcodeField (w : Nat) : Nat := w &&& 0x7f

/-- Spec formula: rd = (word >> 7) & 0x1F. -/
def rdField (w : Nat) : Nat := (w >>> 7) &&& 0x1f

/-- Spec formula: funct3 = (word >> 12) & 0x7. -/
def funct3Field (w : Nat) : Nat := (w >>> 12) &&& 0x7

/-- Spec formula: rs1 = (word >> 15) & 0x1F. -/
def rs1Field (w : Nat) : Nat := (w >>> 15) &&& 0x1f

/-- Spec formula: rs2 = (word >> 20) & 0x1F. -/
def rs2Field (w : Nat) : Nat := (w >>> 20) &&& 0x1f

/-- Spec formula: funct7 = (word >> 25) & 0x7F. -/
def funct7Field (w : Nat) : Nat := (w >>> 25) &&& 0x7f

/-- The 12-bit immediate pattern in bits 31 to 20 of the word. -/
def immField (w : Nat) : Nat := (w >>> 20) &&& 0xfff

/-- Sign extension of a 12-bit pattern p as stated by the spec: p - 4096 when
bit 11 of p is set, p otherwise. -/
def signExt12 (p : Nat) : Int := if 2048 ≤ p then (p : Int) - 4096 else (p : Int)

/-- The dispatch table of section 4.1 of the spec, as a predicate on words:
the word carries an opcode, funct3, funct7 combination that the table decodes
to a concrete (non-Unsupported) instruction. The system row produces a
concrete instruction only for rd = 0, rs1 = 0 and imm 0 or 1. -/
def InSpecTable (w : Nat) : Prop :=
(opcodeField w = 0x33 ∧ funct3Field w = 0x0 ∧ (funct7Field w = 0x00 ∨ funct7Field w = 0x20)) ∨
(opcodeField w = 0x33 ∧ (funct3Field w = 0x4 ∨ funct3Field w = 0x6 ∨ funct3Field w = 0x7) ∧ funct7Field w = 0x00) ∨
(opcodeField w = 0x13 ∧ (funct3Field w = 0x0 ∨ funct3Field w = 0x2 ∨ funct3Field w = 0x3 ∨ funct3Field w = 0x4 ∨ funct3Field w = 0x6 ∨ funct3Field w = 0x7)) ∨
(opcodeField w = 0x13 ∧ funct3Field w = 0x1 ∧ funct7Field w = 0x00) ∨
(opcodeField w = 0x13 ∧ funct3Field w = 0x5 ∧ (funct7Field w = 0x00 ∨ funct7Field w = 0x20)) ∨
(opcodeField w = 0x03 ∧ (funct3Field w = 0x0 ∨ funct3Field w = 0x1 ∨ funct3Field w = 0x2 ∨ funct3Field w = 0x4 ∨ funct3Field w = 0x5)) ∨
(opcodeField w = 0x67 ∧ funct3Field w = 0x0) ∨
(opcodeField w = 0x73 ∧ funct3Field w = 0x0 ∧ rdField w = 0 ∧ rs1Field w = 0 ∧ immField w ≤ 1)

instance (w : Nat) : Decidable (InSpecTable w) := by
unfold InSpecTable
infer_instance

/-! Bridge lemmas: every mask-and-shift field extraction used by the decoder
and by the spec formulas equals a div-mod expression, which the linear
arithmetic automation can reason about. -/

theorem and_shifted_mask (w l k : Nat) :
w &&& ((2 ^ k - 1) * 2 ^ l) = (w / 2 ^ l % 2 ^ k) * 2 ^ l := by
have h1 : (2 ^ k - 1) * 2 ^ l = (2 ^ k - 1) <<< l := (Nat.shiftLeft_eq _ _).symm
have h2 : (w / 2 ^ l % 2 ^ k) * 2 ^ l = ((w >>> l) % 2 ^ k) <<< l := by
  rw [Nat.shiftLeft_eq, Nat.shiftRight_eq_div_pow]
rw [h1, h2]
apply Nat.eq_of_testBit_eq
intro i
simp only [Nat.testBit_and, Nat.testBit_shiftLeft, Nat.testBit_two_pow_sub_one,
  Nat.testBit_mod_two_pow, Nat.testBit_shiftRight]
by_cases hl : l ≤ i
· have hi : l + (i - l) = i := by omega
  rw [hi]
  by_cases hk : i - l < k <;> simp [hl, hk, Bool.and_comm, Bool.and_left_comm]
· simp [hl]

theorem extract_div (w l k : Nat) :
(w &&& ((2 ^ k - 1) * 2 ^ l)) >>> l = w / 2 ^ l % 2 ^ k := by
rw [and_shifted_mask, Nat.shiftRight_eq_div_pow, Nat.mul_div_cancel _ (Nat.two_pow_pos l)]

theorem spec_extract (w l k : Nat) : (w >>> l) &&& (2 ^ k - 1) = w / 2 ^ l % 2 ^ k := by
rw [Nat.and_pow_two_sub_one_eq_mod, Nat.shiftRight_eq_div_pow]

theorem and127 (w : Nat) : w &&& 127 = w % 128 := by
have h := Nat.and_pow_two_sub_one_eq_mod w 7
norm_num at h
exact h

theorem code_rd (w : Nat) : u8 ((w &&& 0xf80) >>> 7) = w / 128 % 32 := by
have h := extract_div w 7 5
norm_num at h
unfold u8
rw [h]
omega

theorem code_f3 (w : Nat) : u8 (((w &&& 0x7000) >>> 12) &&& 0x7) = w / 4096 % 8 := by
have h := extract_div w 12 3
norm_num at h
unfold u8
rw [h]
have h2 := Nat.and_pow_two_sub_one_eq_mod (w / 4096 % 8) 3
norm_num at h2
rw [h2]
omega

theorem u8_and7 (x : Nat) : u8 (x % 8 &&& 7) = x % 8 := by
have h := Nat.and_pow_two_sub_one_eq_mod (x % 8) 3
norm_num at h
unfold u8
rw [h]
omega

theorem code_f3raw (w : Nat) : (w &&& 0x7000) >>> 12 = w / 4096 % 8 := by
have h := extract_div w 12 3
norm_num at h
exact h

theorem code_rs1 (w : Nat) : u8 ((w &&& 0xf8000) >>> 15) = w / 32768 % 32 := by
have h := extract_div w 15 5
norm_num at h
unfold u8
rw [h]
omega

theorem code_rs2 (w : Nat) : u8 ((w &&& 0x1f00000) >>> 20) = w / 1048576 % 32 := by
have h := extract_div w 20 5
norm_num at h
unfold u8
rw [h]
omega

theorem code_immU (w : Nat) : (w &&& 0xfff00000) >>> 20 = w / 1048576 % 4096 := by
have h := extract_div w 20 12
norm_num at h
exact h

theorem code_f7 (w : Nat) : (w &&& 0xfe000000) >>> 25 = w / 33554432 % 128 := by
have h := extract_div w 25 7
norm_num at h
exact h

theorem opcodeField_eq (w : Nat) : opcodeField w = w % 128 := and127 w

theorem rdField_eq (w : Nat) : rdField w = w / 128 % 32 := by
have h := spec_extract w 7 5
norm_num at h
exact h

theorem funct3Field_eq (w : Nat) : funct3Field w = w / 4096 % 8 := by
have h := spec_extract w 12 3
norm_num at h
exact h

theorem rs1Field_eq (w : Nat) : rs1Field w = w / 32768 % 32 := by
have h := spec_extract w 15 5
norm_num at h
exact h

theorem rs2Field_eq (w : Nat) : rs2Field w = w / 1048576 % 32 := by
have h := spec_extract w 20 5
norm_num at h
exact h

theorem funct7Field_eq (w : Nat) : funct7Field w = w / 33554432 % 128 := by
have h := spec_extract w 25 7
norm_num at h
exact h

theorem immField_eq (w : Nat) : immField w = w / 1048576 % 4096 := by
have h := spec_extract w 20 12
norm_num at h
exact h

theorem decodeImmI_eq (w : Nat) :
decodeImmI w = signExt12 (w / 1048576 % 4096) := by
have hm : w &&& 0xfff00000 = (w / 1048576 % 4096) * 1048576 := by
  have h := and_shifted_mask w 20 12
  norm_num at h
  exact h
set p := w / 1048576 % 4096 with hp
have hplt : p < 4096 := Nat.mod_lt _ (by norm_num)
unfold decodeImmI toI32 i32shr toI16 signExt12
rw [hm]
have hsz : p * 1048576 < 4294967296 := by omega
rw [Nat.mod_eq_of_lt hsz]
by_cases hc : 2048 ≤ p
· rw [if_neg (by omega : ¬ (p * 1048576 < 2147483648))]
  have e1 : ((p * 1048576 : Nat) : Int) - 4294967296 = ((p : Int) - 4096) * 1048576 := by
    push_cast
    ring
  rw [e1]
  have e2 : Int.fdiv (((p : Int) - 4096) * 1048576) (2 ^ 20) = (p : Int) - 4096 := by
    have h20 : (2 ^ 20 : Int) = 1048576 := by norm_num
    rw [h20]
    exact Int.mul_fdiv_cancel _ (by norm_num)
  rw [e2]
  have h3 : ((p : Int) - 4096) % 65536 = (p : Int) + 61440 := by omega
  rw [h3]
  rw [if_neg (by omega : ¬ ((p : Int) + 61440 < 32768)), if_pos hc]
  omega
· rw [if_pos (by omega : p * 1048576 < 2147483648)]
  have e1 : ((p * 1048576 : Nat) : Int) = (p : Int) * 1048576 := by
    push_cast
    ring
  rw [e1]
  have e2 : Int.fdiv ((p : Int) * 1048576) (2 ^ 20) = (p : Int) := by
    have h20 : (2 ^ 20 : Int) = 1048576 := by norm_num
    rw [h20]
    exact Int.mul_fdiv_cancel _ (by norm_num)
  rw [e2]
  have h3 : (p : Int) % 65536 = (p : Int) := by omega
  rw [h3, if_pos (by omega : (p : Int) < 32768), if_neg hc]

theorem i16and_signExt12 (p : Nat) (hp : p < 4096) :
i16and (signExt12 p) 31 = ((p % 32 : Nat) : Int) := by
unfold i16and pat16 signExt12 toI16
have h31 : ((31 : Int) % 65536).toNat = 31 := by decide
rw [h31]
by_cases hc : 2048 ≤ p
· rw [if_pos hc]
  have h1 : ((p : Int) - 4096) % 65536 = ((p + 61440 : Nat) : Int) := by
    push_cast
    omega
  rw [h1, Int.toNat_natCast]
  have h2 := Nat.and_pow_two_sub_one_eq_mod (p + 61440) 5
  norm_num at h2
  rw [h2]
  have h3 : (p + 61440) % 32 = p % 32 := by omega
  rw [h3]
  have h4 : ((p % 32 : Nat) : Int) % 65536 = ((p % 32 : Nat) : Int) := by omega
  rw [h4, if_pos (by omega : ((p % 32 : Nat) : Int) < 32768)]
· rw [if_neg hc]
  have h1 : (p : Int) % 65536 = ((p : Nat) : Int) := by omega
  rw [h1, Int.toNat_natCast]
  have h2 := Nat.and_pow_two_sub_one_eq_mod p 5
  norm_num at h2
  rw [h2]
  have h4 : ((p % 32 : Nat) : Int) % 65536 = ((p % 32 : Nat) : Int) := by omega
  rw [h4, if_pos (by omega : ((p % 32 : Nat) : Int) < 32768)]

/-! Auxiliary definitions for the display of unsupported words: the value and
digit set of a hexadecimal rendering, used to characterise hex8. -/

/-- The numeric value of one lowercase hexadecimal digit character. -/
def hexVal (c : Char) : Nat := if c.toNat ≤ 57 then c.toNat - 48 else c.toNat - 87

/-- The numeric value of a hexadecimal digit string, most significant digit
first. -/
def hexNatOfString (s : String) : Nat := s.data.foldl (fun a c => 16 * a + hexVal c) 0

/-- The sixteen lowercase hexadecimal digit characters. -/
def lowercaseHexDigits : List Char := "0123456789abcdef".data

theorem hexVal_hexDigitChar (d : Nat) (hd : d < 16) : hexVal (hexDigitChar d) = d := by
interval_cases d <;> decide

theorem hexDigitChar_mem (d : Nat) (hd : d < 16) : hexDigitChar d ∈ lowercaseHexDigits := by
interval_cases d <;> decide

/-! Concrete values used by the witness theorems for the module, memory and
instance claims. -/

/-- A sample configuration with max_code_size 1024, so a maximum native code
size of 4096 bytes. -/
def sampleConfig : Config := Config.mk (fun _ _ => 0) 0 1048576 1024

/-- One engine allocation holding sampleConfig. -/
def engineA : Engine := Engine.mk 0 sampleConfig

/-- A second, distinct engine allocation holding an equal configuration. -/
def engineB : Engine := Engine.mk 1 sampleConfig

/-- A module built from engineA, with a zeroed 4096-byte arena and no code
installed. -/
def sampleModule : Module := Module.mk engineA (List.replicate 4096 0) 0 (fun _ _ => 0)

/-- A memory built from engineA. -/
def sampleMemoryA : Memory := Memory.mk engineA (List.replicate 1048576 0)

/-- A memory built from engineB. -/
def sampleMemoryB : Memory := Memory.mk engineB (List.replicate 1048576 0)

/-! The claims. -/

/-- C1: the claim states that a word with opcode 0x33, funct3 0x7, funct7
0x00 decodes to a register-register And instruction. The decoder has no And
variant at all: the funct3 0x7 arm of the opcode 0x33 branch falls through to
Unsupported. At the canonical encoding of and x1, x2, x3 (word 0x003170b3,
the input of the repository test tests/instruction/decode/arithmetic/and.rs,
which expects And with rd 1, rs1 2, rs2 3) the decoder returns
Unsupported(0x003170b3). -/
theorem C1_and_decodes_unsupported :
decode 0x003170b3 = some (RiscVInstruction.Unsupported 0x003170b3) := by decide

/-- C1 amended behaviour: every word with opcode 0x33 and funct3 0x7 decodes
to Unsupported of the word itself, whatever funct7 is. -/
theorem C1_funct3_seven_unsupported (w : Nat) (hw : w < 4294967296)
(hop : opcodeField w = 0x33) (hf3 : funct3Field w = 0x7) :
decode w = some (RiscVInstruction.Unsupported w) := by
rw [opcodeField_eq] at hop
rw [funct3Field_eq] at hf3
unfold decode
rw [and127, hop]
simp only []
rw [code_f3, hf3]

/-- C1 amended, instantiated at the canonical And encoding with rd 1, rs1 2,
rs2 3. -/
theorem C1_funct3_seven_unsupported_witness :
(0x003170b3 : Nat) < 4294967296 ∧ decode 0x003170b3 = some (RiscVInstruction.Unsupported 0x003170b3) :=
⟨by norm_num, C1_funct3_seven_unsupported 0x003170b3 (by norm_num) (by decide) (by decide)⟩

/-- C2: the claim states that the canonical SRLI encoding decodes to the
shift-right-logical-immediate instruction and displays as srli. The decode
half holds (the variant is named Slri in the source), but Display prints the
mnemonic slri, not srli: at rd 1, rs1 2, shift 5 (word 0x00515093) the
decoded instruction displays as slri x1, x2, 5, while the repository test
tests/instruction/display/immediate/srli.rs expects srli x1, x2, 5. -/
theorem C2_srli_displays_slri :
decode 0x00515093 = some (RiscVInstruction.Slri 1 2 5) ∧
display (RiscVInstruction.Slri 1 2 5) = "slri x1, x2, 5" ∧
"slri x1, x2, 5" ≠ "srli x1, x2, 5" := by
refine ⟨by decide, by decide, by decide⟩

/-- C2 decode half in general: the canonical SRLI encoding with any rd, rs1
and shift amount decodes to the Slri variant with exactly those fields, and
its display is the slri rendering of those fields. -/
theorem C2_srli_decode (rd rs1 s : Nat) (hrd : rd < 32) (hrs1 : rs1 < 32) (hs : s < 32) :
decode (0x13 + rd * 128 + 5 * 4096 + rs1 * 32768 + s * 1048576) =
  some (RiscVInstruction.Slri rd rs1 (s : Int)) ∧
display (RiscVInstruction.Slri rd rs1 (s : Int)) =
  "slri x" ++ toString rd ++ ", x" ++ toString rs1 ++ ", " ++ toString (s : Int) := by
constructor
· set w := 0x13 + rd * 128 + 5 * 4096 + rs1 * 32768 + s * 1048576 with hw
  have hop : w % 128 = 0x13 := by omega
  have hf3 : w / 4096 % 8 = 0x5 := by omega
  have hf7 : w / 33554432 % 128 = 0 := by omega
  have hrdv : w / 128 % 32 = rd := by omega
  have hrs1v : w / 32768 % 32 = rs1 := by omega
  have himm : w / 1048576 % 4096 = s := by omega
  unfold decode
  rw [and127, hop]
  simp only []
  rw [code_f3, hf3]
  simp only []
  rw [code_f7, hf7]
  norm_num
  rw [code_rd, code_rs1, hrdv, hrs1v, decodeImmI_eq, himm,
    i16and_signExt12 s (by omega)]
  rw [Nat.mod_eq_of_lt hs]
  exact ⟨rfl, rfl, rfl⟩
· rfl

/-- C2 decode half instantiated at rd 1, rs1 2, shift 5: the word is
0x00515093 and the display is slri x1, x2, 5. -/
theorem C2_srli_decode_witness :
decode 0x00515093 = some (RiscVInstruction.Slri 1 2 (5 : Int)) ∧
display (RiscVInstruction.Slri 1 2 (5 : Int)) = "slri x1, x2, 5" := by
have h := C2_srli_decode 1 2 5 (by norm_num) (by norm_num) (by norm_num)
norm_num at h
exact h

/-- C3: for every 32-bit word the decoder terminates and returns exactly one
instruction: no panic and no error return. The unreachable arm of the opcode
0x13 branch is embedded as none, and this theorem shows it is never reached:
funct3 is masked to three bits, so the eight listed funct3 arms are
exhaustive. Uniqueness of the result is function determinism of decode. -/
theorem C3_decoder_total (w : Nat) (hw : w < 4294967296) : (decode w).isSome = true := by
unfold decode
dsimp only []
repeat' split
all_goals first
| rfl
| (exfalso; simp only [code_f3, imp_false] at *; omega)

/-- C3 instantiated at word 0. -/
theorem C3_decoder_total_witness :
(0 : Nat) < 4294967296 ∧ (decode 0).isSome = true :=
⟨by norm_num, C3_decoder_total 0 (by norm_num)⟩

/-- C4: for every word with opcode 0x13 and funct3 0x0 (Addi), the decoded
immediate is the sign extension of the 12-bit pattern p in bits 31 to 20:
p - 4096 when p is at least 2048 (bit 11 set), p otherwise. -/
theorem C4_sign_extension (w : Nat) (hw : w < 4294967296)
(hop : opcodeField w = 0x13) (hf3 : funct3Field w = 0x0) :
decode w = some (RiscVInstruction.Addi (rdField w) (rs1Field w)
  (if 2048 ≤ immField w then (immField w : Int) - 4096 else (immField w : Int))) := by
rw [opcodeField_eq] at hop
rw [funct3Field_eq] at hf3
rw [rdField_eq, rs1Field_eq, immField_eq]
unfold decode
rw [and127, hop]
simp only []
rw [code_f3, hf3]
simp only []
rw [code_rd, code_rs1, decodeImmI_eq]
unfold signExt12
rfl

/-- C4 at the two boundary patterns of the claim: p = 0x7FF gives imm 2047
and p = 0x800 gives imm -2048. -/
theorem C4_sign_extension_witness :
decode 0x7ff00093 = some (RiscVInstruction.Addi 1 0 2047) ∧
decode 0x80000093 = some (RiscVInstruction.Addi 1 0 (-2048)) := by
constructor
· have h := C4_sign_extension 0x7ff00093 (by norm_num) (by decide) (by decide)
  rw [h]
  decide
· have h := C4_sign_extension 0x80000093 (by norm_num) (by decide) (by decide)
  rw [h]
  decide

/-- C5: decode(0x00000073) is Ecall, decode(0x00100073) is Ebreak, and every
other word with opcode 0x73 (non-zero funct3, or non-zero rd, or non-zero
rs1, or an immediate outside 0 and 1) decodes to Unsupported of the word. -/
theorem C5_system_encoding :
decode 0x00000073 = some RiscVInstruction.Ecall ∧
decode 0x00100073 = some RiscVInstruction.Ebreak ∧
∀ w : Nat, w < 4294967296 → opcodeField w = 0x73 →
  (funct3Field w ≠ 0 ∨ rdField w ≠ 0 ∨ rs1Field w ≠ 0 ∨ (immField w ≠ 0 ∧ immField w ≠ 1)) →
  decode w = some (RiscVInstruction.Unsupported w) := by
refine ⟨by decide, by decide, ?_⟩
intro w hw hop hbad
rw [opcodeField_eq] at hop
rw [funct3Field_eq, rdField_eq, rs1Field_eq, immField_eq] at hbad
unfold decode
dsimp only []
repeat' split
all_goals first
| rfl
| (exfalso; simp only [and127, code_f3, code_f3raw, u8_and7, code_rd, code_rs1, code_rs2,
    code_immU, code_f7, imp_false] at *; omega)

/-- C5 instantiated at word 0x000000f3 (opcode 0x73, rd 1): Unsupported. -/
theorem C5_system_encoding_witness :
decode 0x000000f3 = some (RiscVInstruction.Unsupported 0x000000f3) :=
C5_system_encoding.2.2 0x000000f3 (by norm_num) (by decide)
  (Or.inr (Or.inl (by decide)))

/-- C6: constructing an instance returns InvalidEngine exactly when the
module engine and the memory engine are distinct allocations (pointer
identity of the shared engine, modelled by the alloc field), regardless of
the configs being equal, and otherwise succeeds taking ownership of both. -/
theorem C6_engine_identity (m : Module) (mem : Memory) :
(Instance.new m mem = Except.error Error.InvalidEngine ↔ m.engine.alloc ≠ mem.engine.alloc) ∧
(m.engine.alloc = mem.engine.alloc → Instance.new m mem = Except.ok (Instance.mk m mem)) := by
unfold Instance.new
by_cases h : m.engine.alloc = mem.engine.alloc
· simp [h]
· simp [h]

/-- C6 at concrete values: two engines with equal configs but distinct
allocations are rejected with InvalidEngine, and a module and memory from
the same engine allocation are accepted. -/
theorem C6_engine_identity_witness :
engineA.config = engineB.config ∧
Instance.new sampleModule sampleMemoryB = Except.error Error.InvalidEngine ∧
Instance.new sampleModule sampleMemoryA = Except.ok (Instance.mk sampleModule sampleMemoryA) :=
⟨rfl, (C6_engine_identity sampleModule sampleMemoryB).1.mpr (by decide),
  (C6_engine_identity sampleModule sampleMemoryA).2 rfl⟩

/-- C7: set_native_code succeeds on a byte slice of length exactly
max_native_code_size (the permission transitions and the cache invalidation
are modelled as succeeding, as the claim assumes) and records the new code
length; on a slice one byte longer it returns InvalidCodeSize and leaves the
module, hence its code length and the bytes of native_code, unchanged. -/
theorem C7_code_size_guard (m : Module) (b1 b2 : List Nat)
(h1 : b1.length = m.engine.config.max_native_code_size)
(h2 : b2.length = m.engine.config.max_native_code_size + 1) :
(m.set_native_code b1).1 = none ∧
(m.set_native_code b1).2.native_code_size = b1.length ∧
m.set_native_code b2 = (some Error.InvalidCodeSize, m) ∧
(m.set_native_code b2).2.native_code = m.native_code := by
unfold Module.set_native_code
rw [if_neg (by omega), if_pos (by omega)]
exact ⟨rfl, rfl, rfl, rfl⟩

/-- C7 at a concrete module with a native code ceiling of 4096 bytes: a
4096-byte slice is accepted, a 4097-byte slice is rejected with
InvalidCodeSize and the module is unchanged. -/
theorem C7_code_size_guard_witness :
(sampleModule.set_native_code (List.replicate 4096 1)).1 = none ∧
sampleModule.set_native_code (List.replicate 4097 1) = (some Error.InvalidCodeSize, sampleModule) := by
have h := C7_code_size_guard sampleModule (List.replicate 4096 1) (List.replicate 4097 1)
  (by rw [List.length_replicate]; rfl)
  (by rw [List.length_replicate]; rfl)
exact ⟨h.1, h.2.2.1⟩

/-- C8: for every word with opcode 0x13 and funct3 0x1 (with funct7 0x00) or
funct3 0x5 (with funct7 0x00 or 0x20), the decoded shift instruction carries
an immediate equal to the low five bits of the 12-bit immediate field, hence
in the range 0 to 31, whatever the upper bits are. -/
theorem C8_shift_imm_range (w : Nat) (hw : w < 4294967296)
(hop : opcodeField w = 0x13)
(hvalid : (funct3Field w = 0x1 ∧ funct7Field w = 0x00) ∨
  (funct3Field w = 0x5 ∧ (funct7Field w = 0x00 ∨ funct7Field w = 0x20))) :
(decode w = some (RiscVInstruction.Slli (rdField w) (rs1Field w) ((immField w % 32 : Nat) : Int)) ∨
 decode w = some (RiscVInstruction.Slri (rdField w) (rs1Field w) ((immField w % 32 : Nat) : Int)) ∨
 decode w = some (RiscVInstruction.Srai (rdField w) (rs1Field w) ((immField w % 32 : Nat) : Int))) ∧
0 ≤ ((immField w % 32 : Nat) : Int) ∧ ((immField w % 32 : Nat) : Int) ≤ 31 := by
rw [opcodeField_eq] at hop
rw [rdField_eq, rs1Field_eq, immField_eq]
have hb : (w / 1048576 % 4096) % 32 < 32 := by omega
refine ⟨?_, by positivity, by omega⟩
have hmod : (w / 1048576 % 4096) % 32 = w / 1048576 % 4096 % 32 := rfl
rcases hvalid with ⟨hf3, hf7⟩ | ⟨hf3, hf7⟩
· left
  rw [funct3Field_eq] at hf3
  rw [funct7Field_eq] at hf7
  unfold decode
  rw [and127, hop]
  simp only []
  rw [code_f3, hf3]
  simp only []
  rw [code_f7, hf7]
  norm_num
  rw [code_rd, code_rs1, decodeImmI_eq, i16and_signExt12 _ (by omega)]
  refine ⟨rfl, rfl, ?_⟩
  push_cast
  omega
· rw [funct3Field_eq] at hf3
  rw [funct7Field_eq] at hf7
  rcases hf7 with hf7 | hf7
  · right; left
    unfold decode
    rw [and127, hop]
    simp only []
    rw [code_f3, hf3]
    simp only []
    rw [code_f7, hf7]
    norm_num
    rw [code_rd, code_rs1, decodeImmI_eq, i16and_signExt12 _ (by omega)]
    refine ⟨rfl, rfl, ?_⟩
    push_cast
    omega
  · right; right
    unfold decode
    rw [and127, hop]
    simp only []
    rw [code_f3, hf3]
    simp only []
    rw [code_f7, hf7]
    norm_num
    rw [code_rd, code_rs1, decodeImmI_eq, i16and_signExt12 _ (by omega)]
    refine ⟨rfl, rfl, ?_⟩
    push_cast
    omega

/-- C8 at the word 0x41f15093: opcode 0x13, funct3 0x5, funct7 0x20 (Srai),
with the 12-bit immediate field 0x41f whose upper bits are the funct7
pattern; the decoded shift immediate is 31, inside the range 0 to 31. -/
theorem C8_shift_imm_range_witness :
(decode 0x41f15093 = some (RiscVInstruction.Slli 1 2 ((immField 0x41f15093 % 32 : Nat) : Int)) ∨
 decode 0x41f15093 = some (RiscVInstruction.Slri 1 2 ((immField 0x41f15093 % 32 : Nat) : Int)) ∨
 decode 0x41f15093 = some (RiscVInstruction.Srai 1 2 ((immField 0x41f15093 % 32 : Nat) : Int))) ∧
0 ≤ ((immField 0x41f15093 % 32 : Nat) : Int) ∧ ((immField 0x41f15093 % 32 : Nat) : Int) ≤ 31 := by
have h := C8_shift_imm_range 0x41f15093 (by norm_num) (by decide)
  (Or.inr ⟨by decide, Or.inr (by decide)⟩)
have hrd : rdField 0x41f15093 = 1 := by decide
have hrs1 : rs1Field 0x41f15093 = 2 := by decide
rw [hrd, hrs1] at h
exact h

section
set_option maxHeartbeats 4000000
/-- C9: every word whose opcode, funct3, funct7 combination is outside the
dispatch table of the spec decodes to Unsupported of the original word, bit
for bit, and the display of that value is the word rendered as
unsupported(0x..) with exactly eight lowercase hexadecimal digits whose value
is the word itself. -/
theorem C9_unknown_encodings (w : Nat) (hw : w < 4294967296) (hT : ¬ InSpecTable w) :
decode w = some (RiscVInstruction.Unsupported w) ∧
display (RiscVInstruction.Unsupported w) = "unsupported(0x" ++ hex8 w ++ ")" ∧
(hex8 w).length = 8 ∧
hexNatOfString (hex8 w) = w ∧
∀ c ∈ (hex8 w).data, c ∈ lowercaseHexDigits := by
refine ⟨?_, rfl, rfl, ?_, ?_⟩
· simp only [InSpecTable, opcodeField_eq, funct3Field_eq, funct7Field_eq, rdField_eq,
    rs1Field_eq, immField_eq] at hT
  unfold decode
  dsimp only []
  repeat' split
  all_goals first
  | rfl
  | (exfalso; simp only [and127, code_f3, code_f3raw, u8_and7, code_rd, code_rs1, code_rs2,
      code_immU, code_f7, imp_false] at *; omega)
· have e : ∀ x : Nat, hexVal (hexDigitChar (x % 16)) = x % 16 :=
    fun x => hexVal_hexDigitChar _ (Nat.mod_lt _ (by norm_num))
  simp only [hexNatOfString, hex8, List.foldl, e]
  omega
· intro c hc
  simp only [hex8] at hc
  have hm : ∀ x : Nat, hexDigitChar (x % 16) ∈ lowercaseHexDigits :=
    fun x => hexDigitChar_mem _ (Nat.mod_lt _ (by norm_num))
  fin_cases hc
  all_goals exact hm _

end

/-- C9 at the word 0xffffffff (opcode 0x7f, not in the table): Unsupported,
displayed as unsupported(0xffffffff). -/
theorem C9_unknown_encodings_witness :
decode 0xffffffff = some (RiscVInstruction.Unsupported 0xffffffff) ∧
display (RiscVInstruction.Unsupported 0xffffffff) = "unsupported(0x" ++ hex8 0xffffffff ++ ")" :=
⟨(C9_unknown_encodings 0xffffffff (by norm_num) (by decide)).1,
  (C9_unknown_encodings 0xffffffff (by norm_num) (by decide)).2.1⟩

/-- C10: Instance::call returns Ok of the result of the installed native
function at offset pc with argument arg, for every pc and arg: there is no
gas check, no bounds check of pc against the installed code size, and no
error-producing path, although the declared error set of the signature
includes OutOfGas. -/
theorem C10_call_never_errs (inst : Instance) (pc arg : Nat) :
Instance.call inst pc arg = Except.ok (inst.module.native pc arg) ∧
∃ v : Nat, Instance.call inst pc arg = Except.ok v :=
⟨rfl, inst.module.native pc arg, rfl⟩

end Noz
